import Mathlib

/-!
Shallow embedding of `src/httpdate/httpdate.py` (jamielinux/httpdate): parsing and
formatting of RFC 9110 HTTP dates.  Machine integers are modelled as `Nat`/`Int`
(Python integers are unbounded, so no wrap-around is involved).  The Python
functions raise `ValueError` with one of three message templates; this is modelled
by `Except ParseError _` together with `ParseError.message`, which records the
literal message template each internal failure produces.
-/

set_option maxRecDepth 100000

namespace Httpdate

/-- Minimum year accepted by RFC 9110 (`MIN_YEAR` in `httpdate.py`). -/
def MIN_YEAR : Nat := 1900

/-- Jan 1st 1900, 00:00:00 UTC (`MIN_UNIXTIME` in `httpdate.py`). -/
def MIN_UNIXTIME : Int := -2208988800

/-- The last second of year 9999 (`253402300799`).  `unixtime_to_httpdate` relies on
`datetime.fromtimestamp`, whose maximum representable year is 9999; beyond it the
code catches the exception and reports "out of range".  -/
def MAX_UNIXTIME : Int := 253402300799

/-- Modelled from the spec: `LEAP_SECONDS` is imported from the external
`leapseconds` package, which is not part of `src/`.  Per the spec it is the fixed
set of Unix timestamps of the officially declared positive leap seconds of the
IERS historical table (each value is the timestamp `calendar.timegm` assigns to
the instant `23:59:60 UTC` of the day preceding the insertion). -/
def LEAP_SECONDS : List Int :=
  [78796800, 94694400, 126230400, 157766400, 189302400, 220924800, 252460800,
   283996800, 315532800, 362793600, 394329600, 425865600, 489024000, 567993600,
   631152000, 662688000, 709948800, 741484800, 773020800, 820454400, 867715200,
   915148800, 1136073600, 1230768000, 1341100800, 1435708800, 1483228800]

/-- The `MONTHS` dict of `httpdate.py`: English three-letter month abbreviations. -/
def MONTHS (s : String) : Option Nat :=
  if s = "Jan" then some 1
  else if s = "Feb" then some 2
  else if s = "Mar" then some 3
  else if s = "Apr" then some 4
  else if s = "May" then some 5
  else if s = "Jun" then some 6
  else if s = "Jul" then some 7
  else if s = "Aug" then some 8
  else if s = "Sep" then some 9
  else if s = "Oct" then some 10
  else if s = "Nov" then some 11
  else if s = "Dec" then some 12
  else none

/-- The `WEEKDAYS` dict of `httpdate.py`: Monday-based index to (full name, abbreviation). -/
def WEEKDAYS (i : Nat) : String × String :=
  match i with
  | 0 => ("Monday", "Mon")
  | 1 => ("Tuesday", "Tue")
  | 2 => ("Wednesday", "Wed")
  | 3 => ("Thursday", "Thu")
  | 4 => ("Friday", "Fri")
  | 5 => ("Saturday", "Sat")
  | 6 => ("Sunday", "Sun")
  | _ => ("", "")

/-- Proleptic-Gregorian leap year rule, as used by Python's `datetime`/`calendar`. -/
def isLeap (y : Nat) : Bool :=
  decide (y % 4 = 0 ∧ (y % 100 ≠ 0 ∨ y % 400 = 0))

/-- Length of month `m` (1-based) in a year with leap flag `leap`. -/
def monthLen (leap : Bool) (m : Nat) : Nat :=
  match m with
  | 1 => 31 | 2 => if leap then 29 else 28 | 3 => 31 | 4 => 30
  | 5 => 31 | 6 => 30 | 7 => 31 | 8 => 31
  | 9 => 30 | 10 => 31 | 11 => 30 | 12 => 31
  | _ => 0

/-- Days of the year strictly before month `m` (1-based). -/
def monthCum (leap : Bool) (m : Nat) : Nat :=
  (match m with
   | 1 => 0 | 2 => 31 | 3 => 59 | 4 => 90 | 5 => 120 | 6 => 151 | 7 => 181
   | 8 => 212 | 9 => 243 | 10 => 273 | 11 => 304 | 12 => 334
   | _ => 365) +
  (if leap ∧ 3 ≤ m then 1 else 0)

def daysInMonth (y m : Nat) : Nat := monthLen (isLeap y) m

/-- Number of days in all years strictly before year `y` (proleptic Gregorian);
`toOrdinal y 1 1 = daysBeforeYear y + 1` matches Python's `date.toordinal`. -/
def daysBeforeYear (y : Nat) : Nat :=
  365 * (y - 1) + (y - 1) / 4 + (y - 1) / 400 - (y - 1) / 100

def yearDays (y : Nat) : Nat := if isLeap y then 366 else 365

/-- Python's `date(y, m, d).toordinal()`. -/
def toOrdinal (y m d : Nat) : Nat := daysBeforeYear y + monthCum (isLeap y) m + d

/-- `date(1970, 1, 1).toordinal()`. -/
def EPOCH_ORDINAL : Nat := 719163

/-- `calendar.timegm` on a `struct_time`: pure arithmetic, works for second = 60. -/
def timegm (y m d h mi s : Nat) : Int :=
  ((toOrdinal y m d : Int) - (EPOCH_ORDINAL : Int)) * 86400 +
    ((h * 3600 + mi * 60 + s : Nat) : Int)

/-- Monday-based weekday of a proleptic-Gregorian date, as computed by
`date.weekday()` (ordinal 1 = 0001-01-01 is a Monday). -/
def weekday (y m d : Nat) : Nat := (toOrdinal y m d + 6) % 7

/-! ### The structural layer: the three `RFC9110` regexes over character lists -/

/-- Python `\w` on the ASCII inputs the formats are built from. -/
def isPyWord (c : Char) : Bool := c.isAlphanum || c = '_'

/-- Match a literal character sequence (regex literal text). -/
def pLit : List Char → List Char → Option (List Char)
  | [], cs => some cs
  | t :: ts, c :: cs => if c = t then pLit ts cs else none
  | _ :: _, [] => none

/-- Match one `\d`, returning its value. -/
def pDigit : List Char → Option (Nat × List Char)
  | c :: cs => if c.isDigit then some (c.toNat - 48, cs) else none
  | [] => none

/-- Match `\d{2}`, returning its value. -/
def p2 (cs : List Char) : Option (Nat × List Char) :=
  match pDigit cs with
  | some (a, cs) =>
    match pDigit cs with
    | some (b, cs) => some (10 * a + b, cs)
    | none => none
  | none => none

/-- Match `\d{4}`, returning its value. -/
def p4 (cs : List Char) : Option (Nat × List Char) :=
  match p2 cs with
  | some (a, cs) =>
    match p2 cs with
    | some (b, cs) => some (100 * a + b, cs)
    | none => none
  | none => none

/-- Match `\w{3}`, returning the token. -/
def pWord3 (cs : List Char) : Option (String × List Char) :=
  match cs with
  | a :: b :: c :: cs =>
    if isPyWord a && isPyWord b && isPyWord c then some (String.mk [a, b, c], cs)
    else none
  | _ => none

/-- Match `\w+` (greedy; the regexes always follow it with a non-word character,
so the maximal run is the unique possible match). -/
def pWordRun (cs : List Char) : Option (String × List Char) :=
  let tok := cs.takeWhile isPyWord
  if tok.isEmpty then none else some (String.mk tok, cs.dropWhile isPyWord)

/-- Match `\d{2}:\d{2}:\d{2}`. -/
def pTime (cs : List Char) : Option (Nat × Nat × Nat × List Char) :=
  match p2 cs with
  | some (h, cs) =>
    match pLit [':'] cs with
    | some cs =>
      match p2 cs with
      | some (mi, cs) =>
        match pLit [':'] cs with
        | some cs =>
          match p2 cs with
          | some (s, cs) => some (h, mi, s, cs)
          | none => none
        | none => none
      | none => none
    | none => none
  | none => none

/-- Match asctime's `(\d{2}| \d{1})` day: the two alternatives are distinguished
by the first character, so no backtracking is needed. -/
def pAsctimeDay (cs : List Char) : Option (Nat × List Char) :=
  match cs with
  | c :: rest =>
    if c.isDigit then p2 cs
    else if c = ' ' then pDigit rest
    else none
  | [] => none

/-- The fields a structural match extracts.  `year` carries the literal year
digits: the 4-digit year for IMF-fixdate and asctime-date, the 2-digit year for
rfc850-date (resolved later by the century resolver). -/
structure HttpFields where
  wdayTok : String
  monthTok : String
  day : Nat
  year : Nat
  hour : Nat
  minute : Nat
  second : Nat
deriving DecidableEq

/-- `^(\w{3}), (\d{2}) (\w{3}) (\d{4} \d{2}:\d{2}:\d{2} GMT)$` -/
def matchImf (cs : List Char) : Option HttpFields :=
  match pWord3 cs with
  | none => none
  | some (wd, cs) =>
  match pLit [',', ' '] cs with
  | none => none
  | some cs =>
  match p2 cs with
  | none => none
  | some (d, cs) =>
  match pLit [' '] cs with
  | none => none
  | some cs =>
  match pWord3 cs with
  | none => none
  | some (mon, cs) =>
  match pLit [' '] cs with
  | none => none
  | some cs =>
  match p4 cs with
  | none => none
  | some (y, cs) =>
  match pLit [' '] cs with
  | none => none
  | some cs =>
  match pTime cs with
  | none => none
  | some (h, mi, s, cs) =>
  match pLit [' ', 'G', 'M', 'T'] cs with
  | none => none
  | some cs =>
  if cs = [] then some ⟨wd, mon, d, y, h, mi, s⟩ else none

/-- `^(\w+), (\d{2}-\w{3}-\d{2}) (\d{2}:\d{2}:\d{2}) GMT$` -/
def matchRfc850 (cs : List Char) : Option HttpFields :=
  match pWordRun cs with
  | none => none
  | some (wd, cs) =>
  match pLit [',', ' '] cs with
  | none => none
  | some cs =>
  match p2 cs with
  | none => none
  | some (d, cs) =>
  match pLit ['-'] cs with
  | none => none
  | some cs =>
  match pWord3 cs with
  | none => none
  | some (mon, cs) =>
  match pLit ['-'] cs with
  | none => none
  | some cs =>
  match p2 cs with
  | none => none
  | some (yy, cs) =>
  match pLit [' '] cs with
  | none => none
  | some cs =>
  match pTime cs with
  | none => none
  | some (h, mi, s, cs) =>
  match pLit [' ', 'G', 'M', 'T'] cs with
  | none => none
  | some cs =>
  if cs = [] then some ⟨wd, mon, d, yy, h, mi, s⟩ else none

/-- `^(\w{3}) (\w{3}) ((\d{2}| \d{1}) \d{2}:\d{2}:\d{2} \d{4})$` -/
def matchAsctime (cs : List Char) : Option HttpFields :=
  match pWord3 cs with
  | none => none
  | some (wd, cs) =>
  match pLit [' '] cs with
  | none => none
  | some cs =>
  match pWord3 cs with
  | none => none
  | some (mon, cs) =>
  match pLit [' '] cs with
  | none => none
  | some cs =>
  match pAsctimeDay cs with
  | none => none
  | some (d, cs) =>
  match pLit [' '] cs with
  | none => none
  | some cs =>
  match pTime cs with
  | none => none
  | some (h, mi, s, cs) =>
  match pLit [' '] cs with
  | none => none
  | some cs =>
  match p4 cs with
  | none => none
  | some (y, cs) =>
  if cs = [] then some ⟨wd, mon, d, y, h, mi, s⟩ else none

/-! ### The semantic layer -/

/-- The distinguishable internal failure causes of `httpdate_to_unixtime` /
`unixtime_to_httpdate` (which check fired).  The Python code surfaces each as a
`ValueError` whose message template is given by `ParseError.message`. -/
inductive ParseError where
  | invalidFormat
  | invalidDate
  | weekdayMismatch
  | outOfRange
  | invalidLeapSecond
deriving DecidableEq

/-- The message template of the `ValueError` the Python code raises for each
failure cause (the code appends the echoed input string to this template). -/
def ParseError.message : ParseError → String
  | .outOfRange => "Out of range"
  | .invalidLeapSecond => "Invalid leap second"
  | _ => "Invalid HTTP-date"

instance {ε α : Type} [DecidableEq ε] [DecidableEq α] : DecidableEq (Except ε α) := fun x y =>
  match x, y with
  | .error e, .error f =>
    match decEq e f with
    | isTrue h => isTrue (h ▸ rfl)
    | isFalse h => isFalse (fun hc => h (by cases hc; rfl))
  | .error _, .ok _ => isFalse (fun hc => Except.noConfusion hc)
  | .ok _, .error _ => isFalse (fun hc => Except.noConfusion hc)
  | .ok a, .ok b =>
    match decEq a b with
    | isTrue h => isTrue (h ▸ rfl)
    | isFalse h => isFalse (fun hc => h (by cases hc; rfl))

/-- Success condition of `time.strptime` on the normalized date strings the code
builds: `%d` accepts 1..31, `%H` 0..23, `%M` 0..59, `%S` 0..61, `%Y` exactly four
digits, and `_strptime` constructs `datetime.date(y, m, d)` (to derive the
weekday), which enforces `1 <= y <= 9999` and the per-month day range. -/
def strptimeOk (y m d h mi s : Nat) : Bool :=
  decide (1 ≤ d ∧ d ≤ 31 ∧ h ≤ 23 ∧ mi ≤ 59 ∧ s ≤ 61 ∧ 1 ≤ y ∧ y ≤ 9999 ∧
    d ≤ daysInMonth y m)

/-- `_string_to_unixtime` of `httpdate.py`, at the level of the numeric fields of
the normalized string it is given (month already resolved via `MONTHS`, year
already resolved for rfc850-date).  The checks appear in the code's order:
`strptime`, then the combined weekday/second/year condition (whose disjuncts
Python evaluates left to right), then `calendar.timegm`, then the leap-second
membership test. -/
def string_to_unixtime (isRfc850 : Bool) (wdayTok : String) (y m d h mi s : Nat) :
    Except ParseError Int :=
  if strptimeOk y m d h mi s then
    let expected := if isRfc850 then (WEEKDAYS (weekday y m d)).1
                    else (WEEKDAYS (weekday y m d)).2
    if wdayTok ≠ expected then .error .weekdayMismatch
    else if 60 < s then .error .invalidDate
    else if y < MIN_YEAR then .error .invalidDate
    else
      let t := timegm y m d h mi s
      if s = 60 ∧ t ∉ LEAP_SECONDS then .error .invalidLeapSecond
      else .ok t
  else .error .invalidDate

/-- The current UTC wall-clock instant (`datetime.now(timezone.utc)`), read by
the century resolver only. -/
structure Now where
  year : Nat
  month : Nat
  day : Nat
  hour : Nat
  minute : Nat
  second : Nat

/-- Python tuple comparison `>` on equal-length integer tuples (lexicographic). -/
def pyListGt : List Nat → List Nat → Bool
  | a :: as, b :: bs => if a = b then pyListGt as bs else decide (b < a)
  | _, _ => false

/-- The rfc850-date century resolution of `_normalize_for_strptime`.  The code
builds `int(f"{this_c}{lm_yy}")` from the two-digit year string; since `lm_yy`
is exactly two digits, that is `this_c * 100 + yy`. -/
def resolveYear (now : Now) (yy month dd hh mi ss : Nat) : Nat :=
  let year := max now.year MIN_YEAR
  let thisC := year / 100
  let lastC := thisC - 1
  if pyListGt [thisC * 100 + yy, month, dd, hh, mi, ss]
      [year + 50, now.month, now.day, now.hour, now.minute, now.second]
  then lastC * 100 + yy
  else thisC * 100 + yy

/-- `httpdate_to_unixtime` of `httpdate.py`.  The formats are tried in the
insertion order of the `RFC9110` dict: IMF-fixdate, rfc850-date, asctime-date.
A month token that is not in `MONTHS` makes `_normalize_for_strptime` raise,
which `break`s out of the loop into the generic invalid-format failure. -/
def httpdate_to_unixtime (now : Now) (httpdate : String) : Except ParseError Int :=
  match matchImf httpdate.data with
  | some f =>
    match MONTHS f.monthTok with
    | none => .error .invalidFormat
    | some m => string_to_unixtime false f.wdayTok f.year m f.day f.hour f.minute f.second
  | none =>
  match matchRfc850 httpdate.data with
  | some f =>
    match MONTHS f.monthTok with
    | none => .error .invalidFormat
    | some m =>
      string_to_unixtime true f.wdayTok
        (resolveYear now f.year m f.day f.hour f.minute f.second)
        m f.day f.hour f.minute f.second
  | none =>
  match matchAsctime httpdate.data with
  | some f =>
    match MONTHS f.monthTok with
    | none => .error .invalidFormat
    | some m => string_to_unixtime false f.wdayTok f.year m f.day f.hour f.minute f.second
  | none => .error .invalidFormat

/-! ### The formatting direction -/

/-- Linear year search: find the year containing day-number `n` (1-based,
counting from year `y`).  Fuel-based structural recursion so that the kernel can
evaluate it. -/
def findYearLin : Nat → Nat → Nat → Nat × Nat
  | 0, n, y => (y, n)
  | fuel + 1, n, y =>
    if yearDays y < n then findYearLin fuel (n - yearDays y) (y + 1) else (y, n)

/-- The year decomposition of `date.fromordinal`: a Gregorian 400-year era is
exactly 146097 days, so whole eras are skipped arithmetically and at most 400
linear steps remain. -/
def findYear (n : Nat) : Nat × Nat :=
  let era := (n - 1) / 146097
  findYearLin 500 (n - era * 146097) (400 * era + 1)

/-- Find the month containing day-of-year `doy` (1-based). -/
def findMonth (leap : Bool) (doy : Nat) : Nat × Nat :=
  if doy ≤ monthCum leap 2 then (1, doy)
  else if doy ≤ monthCum leap 3 then (2, doy - monthCum leap 2)
  else if doy ≤ monthCum leap 4 then (3, doy - monthCum leap 3)
  else if doy ≤ monthCum leap 5 then (4, doy - monthCum leap 4)
  else if doy ≤ monthCum leap 6 then (5, doy - monthCum leap 5)
  else if doy ≤ monthCum leap 7 then (6, doy - monthCum leap 6)
  else if doy ≤ monthCum leap 8 then (7, doy - monthCum leap 7)
  else if doy ≤ monthCum leap 9 then (8, doy - monthCum leap 8)
  else if doy ≤ monthCum leap 10 then (9, doy - monthCum leap 9)
  else if doy ≤ monthCum leap 11 then (10, doy - monthCum leap 10)
  else if doy ≤ monthCum leap 12 then (11, doy - monthCum leap 11)
  else (12, doy - monthCum leap 12)

def digitChar (n : Nat) : Char := Char.ofNat (48 + n)

/-- Zero-padded two-digit rendering (`%d`, `%H`, `%M`, `%S`). -/
def two (n : Nat) : List Char := [digitChar (n / 10 % 10), digitChar (n % 10)]

/-- Four-digit rendering (`%Y`; every formatted year satisfies 1900..9999). -/
def four (n : Nat) : List Char :=
  [digitChar (n / 1000 % 10), digitChar (n / 100 % 10), digitChar (n / 10 % 10),
   digitChar (n % 10)]

/-- `%b` under the C locale. -/
def monthAbbrev (m : Nat) : String :=
  match m with
  | 1 => "Jan" | 2 => "Feb" | 3 => "Mar" | 4 => "Apr" | 5 => "May" | 6 => "Jun"
  | 7 => "Jul" | 8 => "Aug" | 9 => "Sep" | 10 => "Oct" | 11 => "Nov" | 12 => "Dec"
  | _ => ""

/-- `date.strftime("%a, %d %b %Y %H:%M:%S GMT")` on the decomposed fields. -/
def renderImf (wd d m y h mi s : Nat) : String :=
  String.mk ((WEEKDAYS wd).2.data ++ [',', ' '] ++ two d ++ [' '] ++
    (monthAbbrev m).data ++ [' '] ++ four y ++ [' '] ++
    two h ++ [':'] ++ two mi ++ [':'] ++ two s ++ [' ', 'G', 'M', 'T'])

/-- `unixtime_to_httpdate` of `httpdate.py`.  `datetime.fromtimestamp(t, utc)`
floor-divides by 86400 and decomposes the day number; it raises (caught and
reported as out-of-range) beyond year 9999. -/
def unixtime_to_httpdate (unixtime : Int) : Except ParseError String :=
  if unixtime < MIN_UNIXTIME then .error .outOfRange
  else if MAX_UNIXTIME < unixtime then .error .outOfRange
  else
    let days : Int := unixtime / 86400
    let sod : Nat := (unixtime % 86400).toNat
    let ord : Nat := ((EPOCH_ORDINAL : Int) + days).toNat
    let yd := findYear ord
    let md := findMonth (isLeap yd.1) yd.2
    .ok (renderImf (weekday yd.1 md.1 md.2) md.2 md.1 yd.1
      (sod / 3600) (sod / 60 % 60) (sod % 60))

/-- A fixed reference wall-clock instant for the concrete test vectors (the
formats other than rfc850-date never consult it). -/
def now2023 : Now := ⟨2023, 1, 1, 0, 0, 0⟩

/-- The wall-clock instant 1949-12-31T23:59:59Z used by the century-resolution
test vector. -/
def now1949 : Now := ⟨1949, 12, 31, 23, 59, 59⟩

/-- Strict lexicographic order on integer 6-tuples, spelled out as the spec
describes the century-resolution threshold comparison. -/
def lexGt6 (a b : Nat × Nat × Nat × Nat × Nat × Nat) : Prop :=
  b.1 < a.1 ∨ (a.1 = b.1 ∧
    (b.2.1 < a.2.1 ∨ (a.2.1 = b.2.1 ∧
      (b.2.2.1 < a.2.2.1 ∨ (a.2.2.1 = b.2.2.1 ∧
        (b.2.2.2.1 < a.2.2.2.1 ∨ (a.2.2.2.1 = b.2.2.2.1 ∧
          (b.2.2.2.2.1 < a.2.2.2.2.1 ∨ (a.2.2.2.2.1 = b.2.2.2.2.1 ∧
            b.2.2.2.2.2 < a.2.2.2.2.2)))))))))

instance (a b : Nat × Nat × Nat × Nat × Nat × Nat) : Decidable (lexGt6 a b) := by
  unfold lexGt6; infer_instance

/-! ### Arithmetic lemmas about the calendar core -/

theorem daysBeforeYear_succ (y : Nat) (hy1 : 1 ≤ y) :
    daysBeforeYear (y + 1) = daysBeforeYear y + yearDays y := by
  have hy : yearDays y = if y % 4 = 0 ∧ (y % 100 ≠ 0 ∨ y % 400 = 0) then 366 else 365 := by
    simp only [yearDays, isLeap, decide_eq_true_eq]
  rw [hy]
  simp only [daysBeforeYear, Nat.add_sub_cancel]
  split_ifs with h
  · rcases h with ⟨h4, h100 | h400⟩ <;> omega
  · by_cases h4 : y % 4 = 0
    · by_cases h400 : y % 400 = 0
      · exact absurd ⟨h4, Or.inr h400⟩ h
      · by_cases h100 : y % 100 = 0
        · omega
        · exact absurd ⟨h4, Or.inl h100⟩ h
    · omega

theorem daysBeforeYear_mono : ∀ {y2 y1 : Nat}, y1 ≤ y2 →
    daysBeforeYear y1 ≤ daysBeforeYear y2 := by
  intro y2
  induction y2 with
  | zero =>
    intro y1 h
    have hz : y1 = 0 := by omega
    subst hz
    exact le_refl _
  | succ m ih =>
    intro y1 h
    rcases Nat.lt_or_ge y1 (m + 1) with hlt | hge
    · have h1 := ih (show y1 ≤ m by omega)
      rcases Nat.eq_zero_or_pos m with hm | hm
      · subst hm
        have hz : y1 = 0 := by omega
        subst hz
        decide
      · have hs := daysBeforeYear_succ m hm
        omega
    · have hz : y1 = m + 1 := by omega
      subst hz
      exact le_refl _

theorem daysBeforeYear_lt {y1 y2 : Nat} (h0 : 1 ≤ y1) (h : y1 < y2) :
    daysBeforeYear y1 < daysBeforeYear y2 := by
  have h1 : daysBeforeYear (y1 + 1) ≤ daysBeforeYear y2 := daysBeforeYear_mono (by omega)
  have h2 := daysBeforeYear_succ y1 h0
  have h3 : 365 ≤ yearDays y1 := by unfold yearDays; split <;> omega
  omega

theorem findYearLin_spec (fuel : Nat) : ∀ (y n ry rd : Nat), 1 ≤ y → 1 ≤ n →
    daysBeforeYear y + n ≤ daysBeforeYear (y + fuel + 1) →
    findYearLin fuel n y = (ry, rd) →
    y ≤ ry ∧ 1 ≤ rd ∧ rd ≤ yearDays ry ∧
      daysBeforeYear ry + rd = daysBeforeYear y + n := by
  induction fuel with
  | zero =>
    intro y n ry rd hy1 h1 h2 heq
    have h3 := daysBeforeYear_succ y hy1
    simp only [findYearLin, Prod.mk.injEq] at heq
    simp only [Nat.add_zero] at h2
    obtain ⟨hy, hn⟩ := heq
    subst hy; subst hn
    omega
  | succ fuel ih =>
    intro y n ry rd hy1 h1 h2 heq
    have hsucc := daysBeforeYear_succ y hy1
    simp only [findYearLin] at heq
    by_cases hlt : yearDays y < n
    · rw [if_pos hlt] at heq
      have hrec := ih (y + 1) (n - yearDays y) ry rd (by omega) (by omega)
        (by
          have he : y + 1 + fuel + 1 = y + (fuel + 1) + 1 := by omega
          rw [he]
          omega) heq
      omega
    · rw [if_neg hlt] at heq
      simp only [Prod.mk.injEq] at heq
      obtain ⟨hy, hn⟩ := heq
      subst hy; subst hn
      omega

theorem daysBeforeYear_era (e : Nat) : daysBeforeYear (400 * e + 1) = 146097 * e := by
  simp only [daysBeforeYear, Nat.add_sub_cancel]
  omega

/-- The year search of `date.fromordinal` is correct on every ordinal of the
supported range (years 1..9999). -/
theorem findYear_spec {n y doy : Nat} (h1 : 1 ≤ n) (h2 : n ≤ 3652059)
    (heq : findYear n = (y, doy)) :
    1 ≤ y ∧ y ≤ 9999 ∧ 1 ≤ doy ∧ doy ≤ yearDays y ∧ daysBeforeYear y + doy = n := by
  have hdm := Nat.div_add_mod (n - 1) 146097
  have hmod : (n - 1) % 146097 < 146097 := Nat.mod_lt _ (by omega)
  have hera := daysBeforeYear_era ((n - 1) / 146097)
  have hbound : 146097 * ((n - 1) / 146097) + 146097 + 1 ≤
      daysBeforeYear (400 * ((n - 1) / 146097) + 1 + 500 + 1) := by
    simp only [daysBeforeYear]
    omega
  simp only [findYear] at heq
  have hspec := findYearLin_spec 500 (400 * ((n - 1) / 146097) + 1)
    (n - (n - 1) / 146097 * 146097) y doy (by omega) (by omega) (by omega) heq
  have h10000 : daysBeforeYear 10000 = 3652059 := by decide
  obtain ⟨ha, hb, hc, hd⟩ := hspec
  refine ⟨by omega, ?_, hb, hc, by omega⟩
  by_contra hcon
  have := daysBeforeYear_mono (show 10000 ≤ y by omega)
  omega

theorem findMonth_spec : ∀ (leap : Bool) (doy : Nat), doy < 367 → 1 ≤ doy →
    doy ≤ (if leap then 366 else 365) →
    1 ≤ (findMonth leap doy).1 ∧ (findMonth leap doy).1 ≤ 12 ∧
    1 ≤ (findMonth leap doy).2 ∧
    (findMonth leap doy).2 ≤ monthLen leap (findMonth leap doy).1 ∧
    monthCum leap (findMonth leap doy).1 + (findMonth leap doy).2 = doy := by
  decide

/-! ### Rendering and re-parsing of digits and tokens -/

theorem digitChar_isDigit {n : Nat} (h : n < 10) : (digitChar n).isDigit = true := by
  interval_cases n <;> decide

theorem digitChar_toNat {n : Nat} (h : n < 10) : (digitChar n).toNat = 48 + n := by
  interval_cases n <;> decide

theorem pDigit_cons {n : Nat} (r : List Char) (h : n < 10) :
    pDigit (digitChar n :: r) = some (n, r) := by
  simp only [pDigit, digitChar_isDigit h, if_true, digitChar_toNat h]
  simp

theorem p2_append {n : Nat} (r : List Char) (h : n ≤ 99) :
    p2 (two n ++ r) = some (n, r) := by
  have e1 := pDigit_cons (digitChar (n % 10) :: r) (show n / 10 % 10 < 10 by omega)
  have e2 := pDigit_cons r (show n % 10 < 10 by omega)
  simp only [two, List.cons_append, List.nil_append]
  simp only [p2, e1, e2, Option.some.injEq, Prod.mk.injEq]
  exact ⟨by omega, trivial⟩

theorem four_eq_two_two (n : Nat) : four n = two (n / 100) ++ two (n % 100) := by
  simp only [four, two, List.cons_append, List.nil_append]
  rw [show n / 100 / 10 % 10 = n / 1000 % 10 by omega,
    show n % 100 / 10 % 10 = n / 10 % 10 by omega,
    show n % 100 % 10 = n % 10 by omega]

theorem p4_append {n : Nat} (r : List Char) (h : n ≤ 9999) :
    p4 (four n ++ r) = some (n, r) := by
  rw [four_eq_two_two, List.append_assoc]
  have e1 := p2_append (two (n % 100) ++ r) (show n / 100 ≤ 99 by omega)
  have e2 := p2_append r (show n % 100 ≤ 99 by omega)
  simp only [p4, e1, e2, Option.some.injEq, Prod.mk.injEq]
  exact ⟨by omega, trivial⟩

theorem pLit_comma_space (r : List Char) : pLit [',', ' '] (',' :: ' ' :: r) = some r := by
  simp [pLit]

theorem pLit_space (r : List Char) : pLit [' '] (' ' :: r) = some r := by
  simp [pLit]

theorem pLit_colon (r : List Char) : pLit [':'] (':' :: r) = some r := by
  simp [pLit]

theorem pLit_dash (r : List Char) : pLit ['-'] ('-' :: r) = some r := by
  simp [pLit]

theorem pLit_gmt (r : List Char) :
    pLit [' ', 'G', 'M', 'T'] (' ' :: 'G' :: 'M' :: 'T' :: r) = some r := by
  simp [pLit]

theorem pWord3_cons {a b c : Char} (r : List Char)
    (h : (isPyWord a && isPyWord b && isPyWord c) = true) :
    pWord3 (a :: b :: c :: r) = some (String.mk [a, b, c], r) := by
  simp only [pWord3, h, if_true]

theorem pWord3_weekday {wd : Nat} (h : wd < 7) (r : List Char) :
    pWord3 ((WEEKDAYS wd).2.data ++ r) = some ((WEEKDAYS wd).2, r) := by
  interval_cases wd <;> exact pWord3_cons r (by decide)

theorem pWord3_month {m : Nat} (h1 : 1 ≤ m) (h2 : m ≤ 12) (r : List Char) :
    pWord3 ((monthAbbrev m).data ++ r) = some (monthAbbrev m, r) := by
  interval_cases m <;> exact pWord3_cons r (by decide)

theorem MONTHS_monthAbbrev {m : Nat} (h1 : 1 ≤ m) (h2 : m ≤ 12) :
    MONTHS (monthAbbrev m) = some m := by
  interval_cases m <;> decide

theorem pTime_append {h mi s : Nat} (r : List Char) (hh : h ≤ 99) (hmi : mi ≤ 99)
    (hs : s ≤ 99) :
    pTime (two h ++ (':' :: (two mi ++ (':' :: (two s ++ r))))) = some (h, mi, s, r) := by
  have e1 := p2_append (':' :: (two mi ++ (':' :: (two s ++ r)))) hh
  have e2 := p2_append (':' :: (two s ++ r)) hmi
  have e3 := p2_append r hs
  simp only [pTime, e1, e2, e3, pLit_colon]

theorem monthLen_le31 (leap : Bool) (m : Nat) : monthLen leap m ≤ 31 := by
  unfold monthLen
  split <;> (try split) <;> omega

theorem yearDays_le366 (y : Nat) : yearDays y ≤ 366 := by
  unfold yearDays; split <;> omega

/-- Re-parsing a rendered IMF-fixdate recovers the fields: the emitted string
matches the IMF-fixdate regex and nothing else is consumed. -/
theorem matchImf_render {wd d m y h mi s : Nat} (hwd : wd < 7) (hm1 : 1 ≤ m)
    (hm2 : m ≤ 12) (hd : d ≤ 99) (hy : y ≤ 9999) (hh : h ≤ 99) (hmi : mi ≤ 99)
    (hs : s ≤ 99) :
    matchImf (renderImf wd d m y h mi s).data =
      some ⟨(WEEKDAYS wd).2, monthAbbrev m, d, y, h, mi, s⟩ := by
  simp only [renderImf]
  simp only [List.append_assoc, List.cons_append, List.nil_append]
  simp only [matchImf, hwd, hd, hy, hh, hmi, hs, hm1, hm2, pWord3_weekday,
    pLit_comma_space, p2_append, pLit_space, pWord3_month, p4_append,
    pTime_append, pLit_gmt]
  simp

/-- C1: for every integer timestamp `t` with `MIN_UNIXTIME ≤ t ≤ MAX_UNIXTIME`
that is not a leap-second instant (not a member of `LEAP_SECONDS`), parsing the
formatted output round-trips: `httpdate_to_unixtime (unixtime_to_httpdate t) = t`,
for an arbitrary wall-clock reading (IMF-fixdate parsing never consults it). -/
theorem claim1_roundtrip (t : Int) (now : Now) (h1 : MIN_UNIXTIME ≤ t)
    (h2 : t ≤ MAX_UNIXTIME) (h3 : t ∉ LEAP_SECONDS) :
    (unixtime_to_httpdate t).bind (httpdate_to_unixtime now) = Except.ok t := by
  simp only [MIN_UNIXTIME, MAX_UNIXTIME] at h1 h2
  have hmod1 : 0 ≤ t % 86400 := Int.emod_nonneg t (by norm_num)
  have hmod2 : t % 86400 < 86400 := Int.emod_lt_of_pos t (by norm_num)
  have hdm : 86400 * (t / 86400) + t % 86400 = t := Int.ediv_add_emod t 86400
  unfold unixtime_to_httpdate
  rw [if_neg (show ¬ t < MIN_UNIXTIME by simp only [MIN_UNIXTIME]; omega),
      if_neg (show ¬ MAX_UNIXTIME < t by simp only [MAX_UNIXTIME]; omega)]
  dsimp only
  rw [show ((EPOCH_ORDINAL : Nat) : Int) = 719163 from rfl]
  set q := t / 86400 with hq
  set r := t % 86400 with hr
  have hqb : -25567 ≤ q ∧ q ≤ 2932896 := by omega
  have hNcast : (((719163 : Int) + q).toNat : Int) = 719163 + q :=
    Int.toNat_of_nonneg (by omega)
  have hNlb : 693596 ≤ ((719163 : Int) + q).toNat := by omega
  have hNub : ((719163 : Int) + q).toNat ≤ 3652059 := by omega
  have hrt : (r.toNat : Int) = r := Int.toNat_of_nonneg hmod1
  rcases hfy : findYear ((719163 : Int) + q).toNat with ⟨y, doy⟩
  obtain ⟨hy1, hy9999, hdoy1, hdoyle, hdbe⟩ :=
    findYear_spec (by omega) hNub hfy
  have hyd366 := yearDays_le366 y
  rcases hfm : findMonth (isLeap y) doy with ⟨m, d⟩
  have hmspec := findMonth_spec (isLeap y) doy (by omega) hdoy1
    (show doy ≤ (if isLeap y then 366 else 365) from hdoyle)
  rw [hfm] at hmspec
  dsimp only at hmspec
  obtain ⟨hm1, hm12, hd1, hdlen, hcum⟩ := hmspec
  have hml31 := monthLen_le31 (isLeap y) m
  have hto : toOrdinal y m d = ((719163 : Int) + q).toNat := by
    simp only [toOrdinal]; omega
  have h1900 : daysBeforeYear 1900 = 693595 := by decide
  have hge1900 : 1900 ≤ y := by
    by_contra hc
    have hsucc := daysBeforeYear_succ y hy1
    have hmle := daysBeforeYear_mono (show y + 1 ≤ 1900 by omega)
    omega
  have hwdlt : weekday y m d < 7 := Nat.mod_lt _ (by omega)
  dsimp only
  have hrb : r.toNat ≤ 86399 := by omega
  simp only [Except.bind]
  simp only [httpdate_to_unixtime,
    @matchImf_render (weekday y m d) d m y (r.toNat / 3600) (r.toNat / 60 % 60)
      (r.toNat % 60) hwdlt hm1 hm12 (by omega) (by omega) (by omega) (by omega)
      (by omega),
    MONTHS_monthAbbrev hm1 hm12]
  have hstrp : strptimeOk y m d (r.toNat / 3600) (r.toNat / 60 % 60) (r.toNat % 60)
      = true := by
    simp only [strptimeOk, decide_eq_true_eq, daysInMonth]
    exact ⟨by omega, by omega, by omega, by omega, by omega, by omega, by omega, hdlen⟩
  have hs60 : ¬ (60 < r.toNat % 60) := by omega
  have hsne : ¬ (r.toNat % 60 = 60) := by omega
  have hy1900 : ¬ (y < MIN_YEAR) := by simp only [MIN_YEAR]; omega
  have hsum : r.toNat / 3600 * 3600 + r.toNat / 60 % 60 * 60 + r.toNat % 60 = r.toNat := by
    omega
  have htg : timegm y m d (r.toNat / 3600) (r.toNat / 60 % 60) (r.toNat % 60) = t := by
    simp only [timegm, hto, hsum]
    rw [show ((EPOCH_ORDINAL : Nat) : Int) = 719163 from rfl]
    omega
  simp only [string_to_unixtime, hstrp, if_true, Bool.false_eq_true, if_false,
    ne_eq, not_true_eq_false, hs60, hy1900, hsne, false_and, htg]

/-- Every success of `_string_to_unixtime` is at least `MIN_UNIXTIME`, because
the year-lower-bound check precedes the conversion. -/
theorem string_to_unixtime_ok_bound (isR : Bool) (w : String) (y m d h mi s : Nat)
    (t : Int) (hok : string_to_unixtime isR w y m d h mi s = Except.ok t) :
    MIN_UNIXTIME ≤ t := by
  unfold string_to_unixtime at hok
  by_cases hstrp : strptimeOk y m d h mi s = true
  · rw [if_pos hstrp] at hok
    dsimp only at hok
    set E := if isR then (WEEKDAYS (weekday y m d)).1
      else (WEEKDAYS (weekday y m d)).2 with hE
    simp only [strptimeOk, decide_eq_true_eq] at hstrp
    obtain ⟨hd1, hd31, hhle, hmile, hsle, hy1, hy9999, hdim⟩ := hstrp
    split_ifs at hok with hw hs60 hymin hleap
    simp only [Except.ok.injEq] at hok
    rw [show MIN_YEAR = 1900 from rfl] at hymin
    have h1900 : daysBeforeYear 1900 = 693595 := by decide
    have hmono := daysBeforeYear_mono (show 1900 ≤ y by omega)
    rw [← hok]
    simp only [timegm, toOrdinal]
    rw [show ((EPOCH_ORDINAL : Nat) : Int) = 719163 from rfl,
      show MIN_UNIXTIME = -2208988800 from rfl]
    push_cast
    omega
  · rw [if_neg hstrp] at hok
    exact Except.noConfusion hok

/-- C10: every timestamp `httpdate_to_unixtime` successfully returns is at least
`MIN_UNIXTIME` (no successful parse yields an instant before 1900-01-01T00:00:00Z),
because every successful parse passes the `year >= 1900` check first. -/
theorem claim10_min_bound (now : Now) (s : String) (t : Int)
    (h : httpdate_to_unixtime now s = Except.ok t) : MIN_UNIXTIME ≤ t := by
  unfold httpdate_to_unixtime at h
  rcases hI : matchImf s.data with _ | fI
  · simp only [hI] at h
    rcases hR : matchRfc850 s.data with _ | fR
    · simp only [hR] at h
      rcases hA : matchAsctime s.data with _ | fA
      · simp only [hA] at h
        exact Except.noConfusion h
      · simp only [hA] at h
        rcases hM : MONTHS fA.monthTok with _ | m
        · simp only [hM] at h
          exact Except.noConfusion h
        · simp only [hM] at h
          exact string_to_unixtime_ok_bound _ _ _ _ _ _ _ _ _ h
    · simp only [hR] at h
      rcases hM : MONTHS fR.monthTok with _ | m
      · simp only [hM] at h
        exact Except.noConfusion h
      · simp only [hM] at h
        exact string_to_unixtime_ok_bound _ _ _ _ _ _ _ _ _ h
  · simp only [hI] at h
    rcases hM : MONTHS fI.monthTok with _ | m
    · simp only [hM] at h
      exact Except.noConfusion h
    · simp only [hM] at h
      exact string_to_unixtime_ok_bound _ _ _ _ _ _ _ _ _ h

/-- C6: the parser rejects 1899-12-31 (and, at field level, every resolved year
below 1900); the formatter rejects every timestamp below `MIN_UNIXTIME` with the
out-of-range error, and formats `MIN_UNIXTIME` itself as 1900-01-01. -/
theorem claim6_bounds :
    httpdate_to_unixtime now2023 "Sun, 31 Dec 1899 23:59:59 GMT" =
      .error .invalidDate ∧
    (∀ t : Int, t < MIN_UNIXTIME → unixtime_to_httpdate t = .error .outOfRange) ∧
    unixtime_to_httpdate (-2208988801) = .error .outOfRange ∧
    unixtime_to_httpdate (-2208988800) = .ok "Mon, 01 Jan 1900 00:00:00 GMT" ∧
    (∀ (isR : Bool) (w : String) (y m d h mi s : Nat) (t : Int), y < MIN_YEAR →
      string_to_unixtime isR w y m d h mi s ≠ Except.ok t) := by
  refine ⟨by decide, ?_, by decide, by decide, ?_⟩
  · intro t ht
    unfold unixtime_to_httpdate
    rw [if_pos ht]
  · intro isR w y m d h mi s t hy hok
    unfold string_to_unixtime at hok
    by_cases hstrp : strptimeOk y m d h mi s = true
    · rw [if_pos hstrp] at hok
      dsimp only at hok
      set E := if isR then (WEEKDAYS (weekday y m d)).1
        else (WEEKDAYS (weekday y m d)).2 with hE
      split_ifs at hok with hw hs60 hymin hleap
    · rw [if_neg hstrp] at hok
      exact Except.noConfusion hok

/-- C3: an input whose seconds field is 60 is accepted exactly when the computed
candidate timestamp is an official leap second; otherwise it is rejected with the
distinct invalid-leap-second error.  Stated at the level of the validated fields,
plus the two concrete test vectors. -/
theorem claim3_leap_second :
    (∀ (isR : Bool) (w : String) (y m d h mi s : Nat), s = 60 →
      ((∃ t, string_to_unixtime isR w y m d h mi s = Except.ok t) ↔
        (strptimeOk y m d h mi s = true ∧
         w = (if isR then (WEEKDAYS (weekday y m d)).1
              else (WEEKDAYS (weekday y m d)).2) ∧
         MIN_YEAR ≤ y ∧ timegm y m d h mi s ∈ LEAP_SECONDS))) ∧
    (∀ (isR : Bool) (w : String) (y m d h mi s : Nat), s = 60 →
      strptimeOk y m d h mi s = true →
      w = (if isR then (WEEKDAYS (weekday y m d)).1
           else (WEEKDAYS (weekday y m d)).2) →
      MIN_YEAR ≤ y → timegm y m d h mi s ∉ LEAP_SECONDS →
      string_to_unixtime isR w y m d h mi s = .error .invalidLeapSecond) ∧
    httpdate_to_unixtime now2023 "Sat, 31 Dec 2016 23:59:60 GMT" = .ok 1483228800 ∧
    httpdate_to_unixtime now2023 "Thu, 31 Dec 2015 23:59:60 GMT" =
      .error .invalidLeapSecond := by
  refine ⟨?_, ?_, by decide, by decide⟩
  · intro isR w y m d h mi s hs
    subst hs
    unfold string_to_unixtime
    set E := if isR then (WEEKDAYS (weekday y m d)).1
      else (WEEKDAYS (weekday y m d)).2 with hE
    by_cases hstrp : strptimeOk y m d h mi 60 = true
    · rw [if_pos hstrp]
      dsimp only
      by_cases hw : w ≠ E
      · rw [if_pos hw]
        exact ⟨fun ⟨t, hc⟩ => Except.noConfusion hc, fun ⟨_, hweq, _⟩ => absurd hweq hw⟩
      · rw [if_neg hw, if_neg (show ¬ (60 < 60) by omega)]
        by_cases hy : y < MIN_YEAR
        · rw [if_pos hy]
          exact ⟨fun ⟨t, hc⟩ => Except.noConfusion hc,
            fun ⟨_, _, hmin, _⟩ => absurd hy (by omega)⟩
        · rw [if_neg hy]
          by_cases hl : timegm y m d h mi 60 ∈ LEAP_SECONDS
          · rw [if_neg (fun hc => hc.2 hl)]
            exact ⟨fun _ => ⟨hstrp, not_not.mp hw, by omega, hl⟩,
              fun _ => ⟨timegm y m d h mi 60, rfl⟩⟩
          · rw [if_pos ⟨rfl, hl⟩]
            exact ⟨fun ⟨t, hc⟩ => Except.noConfusion hc,
              fun ⟨_, _, _, hmem⟩ => absurd hmem hl⟩
    · rw [if_neg hstrp]
      exact ⟨fun ⟨t, hc⟩ => Except.noConfusion hc, fun ⟨hstrp2, _⟩ => absurd hstrp2 hstrp⟩
  · intro isR w y m d h mi s hs hstrp hweq hymin hnot
    subst hs
    unfold string_to_unixtime
    set E := if isR then (WEEKDAYS (weekday y m d)).1
      else (WEEKDAYS (weekday y m d)).2 with hE
    rw [if_pos hstrp]
    dsimp only
    rw [if_neg (show ¬ w ≠ E from fun hne => hne hweq),
      if_neg (show ¬ (60 < 60) by omega),
      if_neg (show ¬ y < MIN_YEAR by omega),
      if_pos ⟨rfl, hnot⟩]

/-- C3 witness: the general leap-second acceptance criterion instantiated at the
officially declared 2016-12-31 leap second. -/
theorem claim3_leap_second_witness :
    (∃ t, string_to_unixtime false "Sat" 2016 12 31 23 59 60 = Except.ok t) ↔
      (strptimeOk 2016 12 31 23 59 60 = true ∧
       "Sat" = (if false then (WEEKDAYS (weekday 2016 12 31)).1
            else (WEEKDAYS (weekday 2016 12 31)).2) ∧
       MIN_YEAR ≤ 2016 ∧ timegm 2016 12 31 23 59 60 ∈ LEAP_SECONDS) :=
  claim3_leap_second.1 false "Sat" 2016 12 31 23 59 60 rfl

/-- C4 counterexample: the weekday-mismatch failure is a `ValueError` whose
message template, "Invalid HTTP-date", is identical to the one raised for an
invalid calendar date (and for an unmatched format), so the error kind is not
observably distinguishable from the other error kinds as the claim asserts. -/
theorem claim4_counterexample :
    httpdate_to_unixtime now2023 "Mon, 06 Nov 1994 08:49:37 GMT" =
      .error .weekdayMismatch ∧
    httpdate_to_unixtime now2023 "Mon, 29 Feb 2021 00:00:00 GMT" =
      .error .invalidDate ∧
    ParseError.weekdayMismatch.message = ParseError.invalidDate.message ∧
    ParseError.weekdayMismatch.message = ParseError.invalidFormat.message := by
  decide

/-- C4 (amended): the parse fails via the weekday cross-check exactly when the
literal weekday token differs from the computed weekday in the proper form (full
name for rfc850-date, three-letter abbreviation otherwise); the failure is
surfaced with the same "Invalid HTTP-date" message as InvalidFormat/InvalidDate,
distinct only from the out-of-range and invalid-leap-second messages. -/
theorem claim4_weekday_cross_check :
    (∀ (isR : Bool) (w : String) (y m d h mi s : Nat),
      string_to_unixtime isR w y m d h mi s = .error .weekdayMismatch ↔
        (strptimeOk y m d h mi s = true ∧
         w ≠ (if isR then (WEEKDAYS (weekday y m d)).1
              else (WEEKDAYS (weekday y m d)).2))) ∧
    httpdate_to_unixtime now2023 "Mon, 06 Nov 1994 08:49:37 GMT" =
      .error .weekdayMismatch ∧
    ParseError.weekdayMismatch.message = "Invalid HTTP-date" ∧
    ParseError.weekdayMismatch.message ≠ ParseError.outOfRange.message ∧
    ParseError.weekdayMismatch.message ≠ ParseError.invalidLeapSecond.message := by
  refine ⟨?_, by decide, by decide, by decide, by decide⟩
  intro isR w y m d h mi s
  unfold string_to_unixtime
  set E := if isR then (WEEKDAYS (weekday y m d)).1
    else (WEEKDAYS (weekday y m d)).2 with hE
  constructor
  · intro hc
    by_cases hstrp : strptimeOk y m d h mi s = true
    · rw [if_pos hstrp] at hc
      dsimp only at hc
      refine ⟨hstrp, ?_⟩
      by_contra hw
      rw [if_neg (show ¬ w ≠ E from fun hne => hne hw)] at hc
      split_ifs at hc <;> simp_all
    · rw [if_neg hstrp] at hc
      simp at hc
  · rintro ⟨hstrp, hw⟩
    rw [if_pos hstrp]
    dsimp only
    rw [if_pos hw]

/-- C5: structurally matched inputs whose numeric fields violate the calendar
ranges (day not valid for the month/year under proleptic-Gregorian leap rules,
hour > 23, minute > 59, second > 61 rejected by `strptime`; second = 61 rejected
by the explicit `tm_sec > 60` check) are rejected with the invalid-date error;
Feb 29 2020 parses while Feb 29 2021 fails. -/
theorem claim5_invalid_date :
    (∀ (isR : Bool) (w : String) (y m d h mi s : Nat),
      ¬ (strptimeOk y m d h mi s = true) →
      string_to_unixtime isR w y m d h mi s = .error .invalidDate) ∧
    (∀ (isR : Bool) (w : String) (y m d h mi s : Nat), s = 61 →
      ∃ e, string_to_unixtime isR w y m d h mi s = .error e ∧
        e.message = "Invalid HTTP-date") ∧
    (∀ (isR : Bool) (w : String) (y m d h mi s : Nat), s = 61 →
      w = (if isR then (WEEKDAYS (weekday y m d)).1
           else (WEEKDAYS (weekday y m d)).2) →
      string_to_unixtime isR w y m d h mi s = .error .invalidDate) ∧
    httpdate_to_unixtime now2023 "Sat, 29 Feb 2020 00:00:00 GMT" = .ok 1582934400 ∧
    httpdate_to_unixtime now2023 "Mon, 29 Feb 2021 00:00:00 GMT" =
      .error .invalidDate ∧
    httpdate_to_unixtime now2023 "Sun, 06 Nov 1994 08:49:61 GMT" =
      .error .invalidDate := by
  refine ⟨?_, ?_, ?_, by decide, by decide, by decide⟩
  · intro isR w y m d h mi s hno
    unfold string_to_unixtime
    rw [if_neg hno]
  · intro isR w y m d h mi s hs
    subst hs
    unfold string_to_unixtime
    set E := if isR then (WEEKDAYS (weekday y m d)).1
      else (WEEKDAYS (weekday y m d)).2 with hE
    by_cases hstrp : strptimeOk y m d h mi 61 = true
    · rw [if_pos hstrp]
      dsimp only
      by_cases hw : w ≠ E
      · rw [if_pos hw]
        exact ⟨ParseError.weekdayMismatch, rfl, rfl⟩
      · rw [if_neg hw, if_pos (show (60:Nat) < 61 by omega)]
        exact ⟨ParseError.invalidDate, rfl, rfl⟩
    · rw [if_neg hstrp]
      exact ⟨ParseError.invalidDate, rfl, rfl⟩
  · intro isR w y m d h mi s hs hweq
    subst hs
    unfold string_to_unixtime
    set E := if isR then (WEEKDAYS (weekday y m d)).1
      else (WEEKDAYS (weekday y m d)).2 with hE
    by_cases hstrp : strptimeOk y m d h mi 61 = true
    · rw [if_pos hstrp]
      dsimp only
      rw [if_neg (show ¬ w ≠ E from fun hne => hne hweq),
        if_pos (show (60:Nat) < 61 by omega)]
    · rw [if_neg hstrp]

/-- C5 witness: the general invalid-date rejection instantiated at Feb 29 2021
(not a leap year), whose `strptime` validation fails. -/
theorem claim5_invalid_date_witness :
    ¬ (strptimeOk 2021 2 29 0 0 0 = true) ∧
    string_to_unixtime false "Mon" 2021 2 29 0 0 0 = .error .invalidDate :=
  ⟨by decide, claim5_invalid_date.1 false "Mon" 2021 2 29 0 0 0 (by decide)⟩

/-- Python's lexicographic tuple comparison coincides with the spelled-out strict
lexicographic order on 6-tuples. -/
theorem pyListGt_iff (a1 a2 a3 a4 a5 a6 b1 b2 b3 b4 b5 b6 : Nat) :
    pyListGt [a1, a2, a3, a4, a5, a6] [b1, b2, b3, b4, b5, b6] = true ↔
      lexGt6 (a1, a2, a3, a4, a5, a6) (b1, b2, b3, b4, b5, b6) := by
  simp only [pyListGt, lexGt6]
  split_ifs <;> simp_all

/-- C2: the rfc850-date century resolution equals the spec's formula: attach the
current century (of `max now.year 1900`) to the two-digit year unless the
resulting 6-tuple is lexicographically strictly greater than the
`(current_year + 50, now…)` threshold tuple, in which case attach the previous
century; it is a total function of the raw integer fields (no calendar-validity
check is involved).  Concretely, with the clock at 1949-12-31T23:59:59Z,
"Friday, 31-Dec-99 23:59:59 GMT" resolves to 1999 and parses to 946684799. -/
theorem claim2_century_resolution :
    (∀ (now : Now) (yy mon dd hh mi ss : Nat),
      resolveYear now yy mon dd hh mi ss =
        (if lexGt6 (max now.year 1900 / 100 * 100 + yy, mon, dd, hh, mi, ss)
              (max now.year 1900 + 50, now.month, now.day, now.hour, now.minute,
               now.second)
         then (max now.year 1900 / 100 - 1) * 100 + yy
         else max now.year 1900 / 100 * 100 + yy)) ∧
    httpdate_to_unixtime now1949 "Friday, 31-Dec-99 23:59:59 GMT" =
      Except.ok 946684799 := by
  refine ⟨?_, by decide⟩
  intro now yy mon dd hh mi ss
  unfold resolveYear
  rw [show MIN_YEAR = 1900 from rfl]
  dsimp only
  rcases Decidable.em (lexGt6 (max now.year 1900 / 100 * 100 + yy, mon, dd, hh, mi, ss)
      (max now.year 1900 + 50, now.month, now.day, now.hour, now.minute, now.second))
    with hgt | hgt
  · rw [if_pos ((pyListGt_iff _ _ _ _ _ _ _ _ _ _ _ _).mpr hgt), if_pos hgt]
  · rw [if_neg (fun hc => hgt ((pyListGt_iff _ _ _ _ _ _ _ _ _ _ _ _).mp hc)),
      if_neg hgt]

/-- C7 counterexample: "Sun, 06-Nov-94 08:49:37 GMT" uses a three-letter weekday
token where the rfc850-date layout calls for the full name, but the rfc850-date
pattern (`\w+`) matches it structurally, so it is rejected by the weekday
cross-check rather than with the InvalidFormat kind the claim asserts (the
surfaced `ValueError` message happens to be the same). -/
theorem claim7_counterexample :
    httpdate_to_unixtime now2023 "Sun, 06-Nov-94 08:49:37 GMT" =
      .error .weekdayMismatch ∧
    ParseError.weekdayMismatch ≠ ParseError.invalidFormat := by decide

/-- C7 (amended): wrong case in the month token, extra or missing whitespace,
non-GMT zone labels, and a full weekday name in the IMF-fixdate layout all fail
with InvalidFormat; a wrong-case or three-letter weekday token that still matches
`\w{3}`/`\w+` instead fails the weekday cross-check, with the identical surfaced
message. -/
theorem claim7_strictness :
    httpdate_to_unixtime now2023 "sun, 06 nov 1994 08:49:37 GMT" =
      .error .invalidFormat ∧
    httpdate_to_unixtime now2023 "Sun, 06 nov 1994 08:49:37 GMT" =
      .error .invalidFormat ∧
    httpdate_to_unixtime now2023 "Sun,  06 Nov 1994 08:49:37 GMT" =
      .error .invalidFormat ∧
    httpdate_to_unixtime now2023 "Sun, 06 Nov 1994  08:49:37 GMT" =
      .error .invalidFormat ∧
    httpdate_to_unixtime now2023 " Sun, 06 Nov 1994 08:49:37 GMT" =
      .error .invalidFormat ∧
    httpdate_to_unixtime now2023 "Sun, 06 Nov 1994 08:49:37 GMT " =
      .error .invalidFormat ∧
    httpdate_to_unixtime now2023 "Sun, 06 Nov 1994 08:49:37 UTC" =
      .error .invalidFormat ∧
    httpdate_to_unixtime now2023 "Sun, 06 Nov 1994 08:49:37" =
      .error .invalidFormat ∧
    httpdate_to_unixtime now2023 "Sunday, 06 Nov 1994 08:49:37 GMT" =
      .error .invalidFormat ∧
    httpdate_to_unixtime now2023 "SUN, 06 Nov 1994 08:49:37 GMT" =
      .error .weekdayMismatch ∧
    httpdate_to_unixtime now2023 "Sun, 06-Nov-94 08:49:37 GMT" =
      .error .weekdayMismatch ∧
    ParseError.weekdayMismatch.message = ParseError.invalidFormat.message := by
  decide

/-- C8: the wall clock is consulted only on the rfc850-date path: any input that
does not structurally match the rfc850-date pattern (every IMF-fixdate input,
every asctime-date input, and every unmatched string) parses to the same outcome
under any two clock readings. -/
theorem claim8_clock_independence (s : String) (n1 n2 : Now)
    (h : matchRfc850 s.data = none) :
    httpdate_to_unixtime n1 s = httpdate_to_unixtime n2 s := by
  unfold httpdate_to_unixtime
  rcases hI : matchImf s.data with _ | f
  · simp only [hI, h]
  · simp only [hI]

/-- C8 witness: an IMF-fixdate input does not match the rfc850-date pattern, and
parses identically under two different clock readings. -/
theorem claim8_clock_independence_witness :
    matchRfc850 ("Sun, 06 Nov 1994 08:49:37 GMT" : String).data = none ∧
    httpdate_to_unixtime now2023 "Sun, 06 Nov 1994 08:49:37 GMT" =
      httpdate_to_unixtime now1949 "Sun, 06 Nov 1994 08:49:37 GMT" :=
  ⟨by decide, claim8_clock_independence _ now2023 now1949 (by decide)⟩

/-- C9: asctime-date inputs with a zero-padded single-digit day are accepted, and
parse to the same timestamp as the canonical space-padded form. -/
theorem claim9_asctime_zero_padded :
    httpdate_to_unixtime now2023 "Sun Nov 06 08:49:37 1994" = .ok 784111777 ∧
    httpdate_to_unixtime now2023 "Sun Nov  6 08:49:37 1994" = .ok 784111777 := by
  decide

/-- C1 witness: the round-trip property instantiated at the Unix epoch. -/
theorem claim1_roundtrip_witness :
    (MIN_UNIXTIME ≤ (0 : Int) ∧ (0 : Int) ≤ MAX_UNIXTIME ∧
      (0 : Int) ∉ LEAP_SECONDS) ∧
    (unixtime_to_httpdate 0).bind (httpdate_to_unixtime now2023) = Except.ok 0 :=
  ⟨⟨by decide, by decide, by decide⟩,
    claim1_roundtrip 0 now2023 (by decide) (by decide) (by decide)⟩

/-- C6 witness: the general out-of-range rejection instantiated below the
minimum timestamp. -/
theorem claim6_bounds_witness :
    unixtime_to_httpdate (-3000000000) = .error .outOfRange :=
  claim6_bounds.2.1 (-3000000000) (by decide)

/-- C10 witness: the minimum-bound invariant instantiated at a successful parse. -/
theorem claim10_min_bound_witness : MIN_UNIXTIME ≤ (784111777 : Int) :=
  claim10_min_bound now2023 "Sun, 06 Nov 1994 08:49:37 GMT" 784111777 (by decide)


end Httpdate
